import Mathlib

/-!
Verification development for the Kenya civic-data explorer.

The JavaScript source is embedded shallowly:

* JS strings are Lean `String`s; `String.prototype.toLowerCase` is
  `toLowerStr` (per-character `Char.toLower`), `String.prototype.includes`
  is `strIncludes` (contiguous-substring search).
* `localeCompare` is modelled as a total lexicographic comparison on the
  character sequence (`cmpChars`); the development only relies on it being
  a total order, which is all the specified properties use.
* `Array.prototype.sort` (stable, in place on the copied array) is
  modelled with `List.insertionSort`, which is stable.
* Async control flow is sequentialised; network responses are supplied by
  explicit oracles, and `throw`/`try`/`catch` becomes `Except`.
-/

namespace Civic

/-- JS `String.prototype.toLowerCase`, modelled per character. -/
def toLowerStr (s : String) : String := ⟨s.data.map Char.toLower⟩

/-- Does `hay` start with `needle`? (helper for substring search). -/
def charsLeadWith : List Char → List Char → Bool
  | [], _ => true
  | _ :: _, [] => false
  | a :: as, b :: bs => a == b && charsLeadWith as bs

/-- Does `hay` contain `needle` as a contiguous substring? -/
def charsContain (needle : List Char) : List Char → Bool
  | [] => needle.isEmpty
  | c :: rest => charsLeadWith needle (c :: rest) || charsContain needle rest

/-- JS `hay.includes(needle)`. -/
def strIncludes (hay needle : String) : Bool := charsContain needle.data hay.data

/-- Total lexicographic comparison of character sequences; the model of the
locale-aware comparator underlying `localeCompare`. -/
def cmpChars : List Char → List Char → Ordering
  | [], [] => .eq
  | [], _ :: _ => .lt
  | _ :: _, [] => .gt
  | a :: as, b :: bs =>
    if a < b then .lt
    else if b < a then .gt
    else cmpChars as bs

/-- Model of `a.localeCompare(b)` collapsed to an `Ordering`. -/
def localeCmp (a b : String) : Ordering := cmpChars a.data b.data

/-- The sole domain entity.  `county`/`constituency` are `Option` because JS
object fields may be absent (`undefined`). -/
structure AreaRecord where
  name : String
  code : String
  type : String
  county : Option String := none
  constituency : Option String := none
deriving DecidableEq

/-- Comparator relation of `sortData(_, "name")`: `a.name.localeCompare(b.name) <= 0`. -/
def nameLe (a b : AreaRecord) : Prop := localeCmp a.name b.name ≠ .gt

/-- Comparator relation of `sortData(_, "name-desc")`: `b.name.localeCompare(a.name) <= 0`. -/
def nameDescLe (a b : AreaRecord) : Prop := localeCmp b.name a.name ≠ .gt

/-- `const typeOrder = { county: 1, constituency: 2, ward: 3 }` (lookup of any
other key, `undefined`/NaN in JS, is collapsed to rank 0; no specified
property depends on that case). -/
def typeOrder (t : String) : Nat :=
  if t = "county" then 1 else if t = "constituency" then 2 else if t = "ward" then 3 else 0

/-- Comparator relation of `sortData(_, "type")`: rank difference first, then
name comparison. -/
def typeLe (a b : AreaRecord) : Prop :=
  typeOrder a.type < typeOrder b.type ∨
    (typeOrder a.type = typeOrder b.type ∧ localeCmp a.name b.name ≠ .gt)

instance : DecidableRel nameLe := fun a b =>
  inferInstanceAs (Decidable (localeCmp a.name b.name ≠ .gt))

instance : DecidableRel nameDescLe := fun a b =>
  inferInstanceAs (Decidable (localeCmp b.name a.name ≠ .gt))

instance : DecidableRel typeLe := fun a b =>
  inferInstanceAs (Decidable (typeOrder a.type < typeOrder b.type ∨
    (typeOrder a.type = typeOrder b.type ∧ localeCmp a.name b.name ≠ .gt)))

/-- `DataService.sortData(data, sortBy)`: copies the array and sorts the copy
with the comparator selected by `sortBy`; unknown keys return the copy
unchanged. -/
def sortData (data : List AreaRecord) (sortBy : String) : List AreaRecord :=
  match sortBy with
  | "name" => List.insertionSort nameLe data
  | "name-desc" => List.insertionSort nameDescLe data
  | "type" => List.insertionSort typeLe data
  | _ => data

/-- Result shape of `DataService.calculateStatistics`. -/
structure Stats where
  counties : Nat
  constituencies : Nat
  wards : Nat
  total : Nat
deriving DecidableEq

/-- `DataService.calculateStatistics(data)`. -/
def calculateStatistics (data : List AreaRecord) : Stats :=
  { counties := (data.filter fun item => item.type = "county").length
    constituencies := (data.filter fun item => item.type = "constituency").length
    wards := (data.filter fun item => item.type = "ward").length
    total := data.length }

/-- `matchesSearch` disjunct of `App.applyFilters`; `searchTerm` is already
lowercased by the caller.  `item.county && item.county.toLowerCase()
.includes(searchTerm)` is falsy when `county` is absent or empty. -/
def matchesSearch (searchTerm : String) (item : AreaRecord) : Bool :=
  searchTerm = "" || strIncludes (toLowerStr item.name) searchTerm ||
    (match item.county with
     | some c => c ≠ "" && strIncludes (toLowerStr c) searchTerm
     | none => false)

/-- `matchesCounty` conjunct of `App.applyFilters`. -/
def matchesCounty (selectedCounty : String) (item : AreaRecord) : Bool :=
  selectedCounty = "" || item.county = some selectedCounty

/-- `matchesType` conjunct of `App.applyFilters`. -/
def matchesType (selectedType : String) (item : AreaRecord) : Bool :=
  selectedType = "" || item.type = selectedType

/-- The filtering stage of `App.applyFilters` (src/index.js): the raw search
box value is lowercased, then the data is filtered by the conjunction of the
three criteria. -/
def applyFilters (data : List AreaRecord)
    (searchRaw selectedCounty selectedType : String) : List AreaRecord :=
  data.filter fun item =>
    matchesSearch (toLowerStr searchRaw) item &&
    matchesCounty selectedCounty item &&
    matchesType selectedType item

/-! ## Fetch-resilience layer: `DataService._fetchJSON` -/

/-- Error taxonomy of a `_fetchJSON` call: the timer aborting the attempt
(`AbortError`), a transport-level failure (`TypeError`), a non-success HTTP
status (the `Error` thrown on `!res.ok`), or a body-decoding failure. -/
inductive FetchErr where
  | timeout
  | transport
  | httpStatus (status : Nat)
  | parse
deriving DecidableEq

/-- Outcome of one attempt (one iteration of the `while` loop) as decided by
the environment: the body either resolves to a value, or the attempt throws
with one of the error kinds. -/
inductive AttemptResult where
  | ok (value : String)
  | httpStatus (status : Nat)
  | parseFail
  | abortTimeout
  | transportFail
deriving DecidableEq

/-- `err.name === 'AbortError' || err instanceof TypeError` — the retryable
classification in the `catch` block. -/
def retryable : AttemptResult → Bool
  | .abortTimeout => true
  | .transportFail => true
  | _ => false

/-- The value `_fetchJSON` settles to when an attempt with this outcome is the
last one: resolve with the body, or re-throw the attempt's error. -/
def attemptOutcome : AttemptResult → Except FetchErr String
  | .ok v => .ok v
  | .httpStatus s => .error (.httpStatus s)
  | .parseFail => .error .parse
  | .abortTimeout => .error .timeout
  | .transportFail => .error .transport

/-- `const backoff = attempt => Math.min(1000 * 2 ** attempt, 8000)`. -/
def backoff (attempt : Nat) : Nat := min (1000 * 2 ^ attempt) 8000

/-- Trace of a `_fetchJSON` call: its settled value, the number of attempts
made and the list of inter-attempt delays in order. -/
structure FetchTrace where
  result : Except FetchErr String
  attempts : Nat
  delays : List Nat

instance : DecidableEq (Except FetchErr String) := fun a b =>
  match a, b with
  | .ok x, .ok y => decidable_of_iff (x = y) (by simp)
  | .error x, .error y => decidable_of_iff (x = y) (by simp)
  | .ok _, .error _ => isFalse (by simp)
  | .error _, .ok _ => isFalse (by simp)

instance : DecidableEq FetchTrace := fun a b =>
  decidable_of_iff (a.result = b.result ∧ a.attempts = b.attempts ∧ a.delays = b.delays)
    (by cases a; cases b; simp [FetchTrace.mk.injEq])

/-- The `while (attempt <= retries)` loop of `_fetchJSON`.  `attemptIdx` is
the current value of `attempt`; `remaining` is `retries - attempt`, the number
of retries still allowed.  The outcome of attempt `i` is `env i`. -/
def fetchLoop (env : Nat → AttemptResult) : Nat → Nat → FetchTrace
  | attemptIdx, remaining =>
    match env attemptIdx, remaining with
    | .abortTimeout, r + 1 =>
      let t := fetchLoop env (attemptIdx + 1) r
      ⟨t.result, t.attempts + 1, backoff attemptIdx :: t.delays⟩
    | .transportFail, r + 1 =>
      let t := fetchLoop env (attemptIdx + 1) r
      ⟨t.result, t.attempts + 1, backoff attemptIdx :: t.delays⟩
    | out, _ => ⟨attemptOutcome out, 1, []⟩

/-- `DataService._fetchJSON(url, options, timeout, retries)` for a fixed url
and options, with the per-attempt outcomes supplied by `env`. -/
def fetchJSON (env : Nat → AttemptResult) (retries : Nat) : FetchTrace :=
  fetchLoop env 0 retries

/-! ## Debounce (`src/utils/helpers.js`)

The event loop is modelled at millisecond granularity: a pending
`setTimeout(later, wait)` callback due at time `d` runs iff no further
trigger arrives strictly before... more precisely, when the next trigger
arrives at time `t`, the pending callback has already run iff `d < t`
(a trigger and an expiry at the same instant are processed trigger-first,
so `clearTimeout` wins the tie).  `debounceRun` returns the times at which
the debounced target is invoked. -/

def debounceRun (wait : Nat) : Option Nat → List Nat → List Nat
  | pending, [] =>
    match pending with
    | some d => [d]
    | none => []
  | pending, t :: ts =>
    match pending with
    | none => debounceRun wait (some (t + wait)) ts
    | some d =>
      if d < t then d :: debounceRun wait (some (t + wait)) ts
      else debounceRun wait (some (t + wait)) ts

/-- Invocation times of `debounce(f, wait)` under the trigger-time sequence
`triggers` (ascending). -/
def debounceInvocations (wait : Nat) (triggers : List Nat) : List Nat :=
  debounceRun wait none triggers

/-- One invocation per maximal burst, at the burst's last trigger plus
`wait` — a trigger within `wait` of the previous one extends the burst.
(Stated from the claim, as the specification to compare `debounceRun`
against.) -/
def burstFires (wait : Nat) : List Nat → List Nat
  | [] => []
  | [t] => [t + wait]
  | t :: t2 :: ts =>
    if t2 - t ≤ wait then burstFires wait (t2 :: ts)
    else (t + wait) :: burstFires wait (t2 :: ts)

/-! ## Area repository (`DataService`) -/

/-- One entry of the remote county list (`{name, code}`). -/
structure CountyObj where
  name : String
  code : String
deriving DecidableEq

/-- One ward object inside a constituency of the per-county areas payload. -/
structure WardObj where
  name : String
  code : String
deriving DecidableEq

/-- One constituency object of the per-county areas payload; `wards` may be
absent. -/
structure ConstituencyObj where
  name : String
  code : String
  wards : Option (List WardObj) := none
deriving DecidableEq

/-- Decoded body of the counties endpoint; the `counties` field may be
absent (`(data && data.counties) ? data.counties : []`). -/
structure CountiesPayload where
  counties : Option (List CountyObj) := none
deriving DecidableEq

/-- Decoded body of the per-county areas endpoint; `constituencies` may be
absent. -/
structure AreasPayload where
  constituencies : Option (List ConstituencyObj) := none
deriving DecidableEq

/-- A network request issued by the repository (for observing I/O). -/
inductive Request where
  | counties
  | areasByCounty (countyName : String)
deriving DecidableEq

/-- Environment of the repository: the settled outcome of the `_fetchJSON`
call for each endpoint (refining over the retry layer, which is modelled
separately by `fetchJSON`). -/
structure NetOracle where
  countiesCall : Except FetchErr CountiesPayload
  areasCall : String → Except FetchErr AreasPayload

/-- Mutable fields of a `DataService` instance that the modelled methods
touch: the mock-data flag and the single-entry cache (`this.cache` is only
ever keyed by `'allAreas'`). -/
structure SvcState where
  useMockData : Bool
  cache : Option (List AreaRecord)
deriving DecidableEq

/-- `new DataService()`: `useMockData = true`, empty cache. -/
def newDataService : SvcState := { useMockData := true, cache := none }

/-- `DataService.clearCache()`. -/
def clearCache (st : SvcState) : SvcState := { st with cache := none }

/-- `DataService.getMockCounties()`. -/
def getMockCounties : List CountyObj :=
  [⟨"Nairobi", "047"⟩, ⟨"Mombasa", "001"⟩, ⟨"Kiambu", "022"⟩,
   ⟨"Nakuru", "032"⟩, ⟨"Kisumu", "042"⟩]

/-- The `countyData` table of `getComprehensiveMockData`, transcribed from
the source. -/
def countyData : List (String × List String) := [
  ("Nairobi", ["Westlands", "Dagoretti North", "Dagoretti South", "Langata", "Kibra", "Kambiokeji", "Roysambu", "Embakasi East", "Embakasi Central", "Embakasi North", "Embakasi West", "Embakasi South", "Kamukunji", "Starehe", "Madaraka", "Kasarani", "Ruaraka"]),
  ("Mombasa", ["Mvita", "Changamwe", "Kisauni", "Nyali", "Jomvu", "Likoni"]),
  ("Kwale", ["Msambweni", "Lunga Lunga", "Matuga", "Kinango"]),
  ("Kilifi", ["Kilifi North", "Kilifi South", "Kaloleni", "Rabai", "Ganze", "Malindi", "Magarini"]),
  ("Tana River", ["Garsen", "Galole", "Bura"]),
  ("Lamu", ["Lamu East", "Lamu West"]),
  ("Taita–Taveta", ["Taveta", "Wundanyi", "Mwatate", "Voi"]),
  ("Garissa", ["Garissa Township", "Balambala", "Lagdera", "Dadaab", "Fafi", "Ijara"]),
  ("Wajir", ["Wajir North", "Wajir East", "Tarbaj", "Wajir West", "Eldas", "Wajir South"]),
  ("Mandera", ["Mandera West", "Banissa", "Mandera North", "Mandera South", "Mandera East", "Lafey"]),
  ("Marsabit", ["Moyale", "North Horr", "Saku", "Laisamis"]),
  ("Isiolo", ["Isiolo North", "Isiolo South"]),
  ("Meru", ["Igembe South", "Igembe Central", "Igembe North", "Tigania West", "Tigania East", "North Imenti", "Buuri", "South Imenti", "Imenti Central"]),
  ("Tharaka-Nithi", ["Maara", "Chuka/Igambang\x27ombe", "Tharaka"]),
  ("Embu", ["Manyatta", "Runyenjes", "Mbeere South", "Mbeere North"]),
  ("Kitui", ["Mwingi North", "Mwingi West", "Mwingi Central", "Kitui West", "Kitui Rural", "Kitui Central", "Kitui East", "Kitui South"]),
  ("Machakos", ["Masinga", "Yatta", "Kangundo", "Matungulu", "Kathiani", "Mavoko", "Machakos Town", "Mwala"]),
  ("Makueni", ["Mbooni", "Kilome", "Kaiti", "Makueni", "Kibwezi West", "Kibwezi East"]),
  ("Nyandarua", ["Kinangop", "Kipipiri", "Ol Kalou", "Ol Jorok", "Ndaragwa"]),
  ("Nyeri", ["Tetu", "Kieni", "Mathira", "Othaya", "Mukurweini", "Nyeri Town"]),
  ("Kirinyaga", ["Mwea", "Gichugu", "Ndia", "Kirinyaga Central"]),
  ("Murang\x27a", ["Kangema", "Mathioya", "Kiharu", "Kigumo", "Maragwa", "Kandara", "Gatanga"]),
  ("Kiambu", ["Gatundu South", "Gatundu North", "Juja", "Thika Town", "Ruiru", "Githunguri", "Kiambu", "Kiambaa", "Lari", "Limuru", "Kabete", "Kasarani"]),
  ("Turkana", ["Turkana North", "Turkana West", "Turkana Central", "Loima", "Turkana South", "Turkana East"]),
  ("West Pokot", ["Kapenguria", "Sigor", "Kacheliba", "Pokot South"]),
  ("Samburu", ["Samburu West", "Samburu North", "Samburu East"]),
  ("Trans-Nzoia", ["Kwanza", "Endebess", "Saboti", "Kiminini", "Cherangany"]),
  ("Uasin Gishu", ["Soy", "Turbo", "Moiben", "Ainabkoi", "Kapseret", "Kesses"]),
  ("Elgeyo-Marakwet", ["Marakwet East", "Marakwet West", "Keiyo North", "Keiyo South"]),
  ("Nandi", ["Tinderet", "Aldai", "Nandi Hills", "Chesumei", "Emgwen", "Mosop"]),
  ("Baringo", ["Tiaty", "Baringo North", "Baringo Central", "Baringo South", "Mogotio", "Eldama Ravine"]),
  ("Laikipia", ["Laikipia West", "Laikipia East", "Laikipia North"]),
  ("Nakuru", ["Molo", "Njoro", "Naivasha", "Gilgil", "Kuresoi South", "Kuresoi North", "Subukia", "Rongai", "Narok", "Nakuru Town East", "Nakuru Town West"]),
  ("Narok", ["Kilgoris", "Emurua Dikirr", "Narok North", "Narok East", "Narok South", "Narok West"]),
  ("Kajiado", ["Kajiado North", "Kajiado Central", "Kajiado East", "Kajiado West", "Kajiado South"]),
  ("Kericho", ["Kipkelion East", "Kipkelion West", "Ainamoi", "Bureti", "Belgut", "Sigowet–Soin"]),
  ("Bomet", ["Sotik", "Chepalungu", "Bomet East", "Bomet Central", "Konoin"]),
  ("Kakamega", ["Lugari", "Likuyani", "Malava", "Lurambi", "Navakholo", "Mumias West", "Mumias East", "Matungu", "Khwisero", "Mutsami", "Karaba", "Butere"]),
  ("Vihiga", ["Vihiga", "Sabatia", "Hamisi", "Luanda", "Emuhaya"]),
  ("Bungoma", ["Mount Elgon", "Sirisia", "Kabuchai", "Bumula", "Kanduyi", "Webuye East", "Webuye West", "Kimilili", "Kimusi"]),
  ("Busia", ["Teso North", "Teso South", "Nambale", "Matayos", "Butula", "Funyula", "Budalangi"]),
  ("Siaya", ["Ugenya", "Ugunja", "Alego Usonga", "Gem", "Bondo", "Rarieda"]),
  ("Kisumu", ["Kisumu East", "Kisumu West", "Kisumu Central", "Seme", "Nyando", "Muhoroni", "Nyakach"]),
  ("Homa Bay", ["Kasipul", "Kabondo Kasipul", "Karachuonyo", "Rangwe", "Homa Bay Town", "Ndhiwa", "Suba North", "Suba South"]),
  ("Migori", ["Rongo", "Awendo", "Suna East", "Suna West", "Uriri", "Nyatike", "Kuria West", "Kuria East"]),
  ("Kisii", ["Bonchari", "South Mugirango", "Bomachoge Borabu", "Bobasi", "Bomachoge Chache", "Nyaribari Masaba", "Nyaribari Chache", "West Mugirango", "Kitutu Masaba"]),
  ("Nyamira", ["Kitutu Masaba", "West Mugirango", "North Mugirango", "Borabu"])]

/-- JS `s.padStart(len, c)`. -/
def padStart (s : String) (len : Nat) (c : Char) : String :=
  ⟨List.replicate (len - s.data.length) c ++ s.data⟩

/-- The record pushed for ward `w` (1-based) of constituency `constIdx`
(0-based) of the county with padded code `ccode`. -/
def mockWard (ccode : String) (constIdx : Nat) (county const_ : String) (w : Nat) : AreaRecord :=
  { name := const_ ++ " Ward " ++ toString w
    code := ccode ++ "-" ++ padStart (toString (constIdx + 1)) 2 '0' ++ "-" ++ toString w
    type := "ward"
    county := some county
    constituency := some const_ }

/-- The records pushed for one constituency: the constituency row followed by
its five wards. -/
def mockConstituency (ccode : String) (county : String) (constIdx : Nat) (const_ : String) :
    List AreaRecord :=
  { name := const_
    code := ccode ++ "-" ++ padStart (toString (constIdx + 1)) 2 '0'
    type := "constituency"
    county := some county } ::
  ((List.range 5).map fun w => mockWard ccode constIdx county const_ (w + 1))

/-- The records pushed for one county of the table: the county row followed
by each constituency block, in order. -/
def mockCounty (countyCode : Nat) (county : String) (constituencies : List String) :
    List AreaRecord :=
  { name := county
    code := padStart (toString countyCode) 3 '0'
    type := "county"
    county := some county } ::
  (constituencies.enum.map fun p => mockConstituency (padStart (toString countyCode) 3 '0') county p.1 p.2).flatten

/-- The `for (const [county, constituencies] of Object.entries(countyData))`
loop with `countyCode` starting at 1. -/
def mockLoop : List (String × List String) → Nat → List AreaRecord
  | [], _ => []
  | e :: rest, code => mockCounty code e.1 e.2 ++ mockLoop rest (code + 1)

/-- `DataService.getComprehensiveMockData()`. -/
def getComprehensiveMockData : List AreaRecord := mockLoop countyData 1

/-- `DataService.fetchCounties()`: mock short-circuit, otherwise the counties
endpoint with any error caught and replaced by the mock county list.  The
second component is the log of requests issued. -/
def fetchCounties (st : SvcState) (o : NetOracle) : List CountyObj × List Request :=
  if st.useMockData then (getMockCounties, [])
  else
    match o.countiesCall with
    | .ok payload => (payload.counties.getD [], [.counties])
    | .error _ => (getMockCounties, [.counties])

/-- The constituency/ward processing loop of `fetchAreasByCounty` on a
decoded payload. -/
def processAreas (countyName : String) (p : AreasPayload) : List AreaRecord :=
  match p.constituencies with
  | none => []
  | some cs =>
    (cs.map fun c =>
      ({ name := c.name, code := c.code, type := "constituency", county := some countyName } : AreaRecord) ::
      (match c.wards with
       | none => []
       | some ws => ws.map fun w =>
          { name := w.name, code := w.code, type := "ward"
            county := some countyName, constituency := some c.name })).flatten

/-- `DataService.fetchAreasByCounty(countyName)`: mock branch filters the
mock dataset; live branch hits the per-county endpoint, catching any error
into an empty result. -/
def fetchAreasByCounty (st : SvcState) (o : NetOracle) (countyName : String) :
    List AreaRecord × List Request :=
  if st.useMockData then
    ((getComprehensiveMockData.filter fun item =>
        item.county = some countyName && item.type ≠ "county"), [])
  else
    match o.areasCall countyName with
    | .ok payload => (processAreas countyName payload, [.areasByCounty countyName])
    | .error _ => ([], [.areasByCounty countyName])

/-- The `try` body of `DataService.fetchAllAreas()`: mock short-circuit,
cache hit, otherwise assemble county rows plus per-county rows (each
per-county failure already swallowed inside `fetchAreasByCounty`) and store
the assembly in the cache. -/
def fetchAllAreasBody (st : SvcState) (o : NetOracle) :
    Except FetchErr (List AreaRecord × SvcState × List Request) :=
  if st.useMockData then .ok (getComprehensiveMockData, st, [])
  else
    match st.cache with
    | some cached => .ok (cached, st, [])
    | none =>
      let fc := fetchCounties st o
      let countyRows := fc.1.map fun c =>
        ({ name := c.name, code := c.code, type := "county", county := some c.name } : AreaRecord)
      let subResults := fc.1.map fun c => fetchAreasByCounty st o c.name
      let allAreas := countyRows ++ (subResults.map Prod.fst).flatten
      .ok (allAreas, { st with cache := some allAreas }, fc.2 ++ (subResults.map Prod.snd).flatten)

/-- `DataService.fetchAllAreas()`: the body with its catch-all fallback to
the mock dataset. -/
def fetchAllAreas (st : SvcState) (o : NetOracle) : List AreaRecord × SvcState × List Request :=
  match fetchAllAreasBody st o with
  | .ok v => v
  | .error _ => (getComprehensiveMockData, st, [])

/-! ## Theorems -/

lemma statsSum (R : List AreaRecord)
    (h : ∀ r ∈ R, r.type = "county" ∨ r.type = "constituency" ∨ r.type = "ward") :
    (calculateStatistics R).counties + (calculateStatistics R).constituencies +
      (calculateStatistics R).wards = (calculateStatistics R).total := by
  simp only [calculateStatistics]
  induction R with
  | nil => rfl
  | cons r rest ih =>
    have hrest := ih fun x hx => h x (List.mem_cons_of_mem r hx)
    rcases h r (List.mem_cons_self r rest) with h1 | h1 | h1 <;>
      simp [List.filter_cons, h1] <;> omega

/-- C4: for every record collection `R`, `calculateStatistics R` has
`total = R.length`, and — whenever every record's `type` is one of the three
enumerated values, as the data model requires — the three per-type counts sum
to `total`.  The function is a pure total Lean function, so it has no side
effects and no failure mode; the empty collection gives all-zero counts by
computation. -/
theorem calculateStatistics_counts (R : List AreaRecord) :
    (calculateStatistics R).total = R.length ∧
    (calculateStatistics []) = ⟨0, 0, 0, 0⟩ ∧
    ((∀ r ∈ R, r.type = "county" ∨ r.type = "constituency" ∨ r.type = "ward") →
      (calculateStatistics R).counties + (calculateStatistics R).constituencies +
        (calculateStatistics R).wards = (calculateStatistics R).total) :=
  ⟨rfl, rfl, statsSum R⟩

/-- Witness for C4 at the spec's concrete scenario: Nairobi county, Westlands
constituency, two wards; statistics are `{1, 1, 2, 4}`. -/
theorem calculateStatistics_counts_witness :
    (calculateStatistics
      [{ name := "Nairobi", type := "county", code := "" },
       { name := "Westlands", type := "constituency", code := "", county := some "Nairobi" },
       { name := "Parklands", type := "ward", code := "", county := some "Nairobi",
         constituency := some "Westlands" },
       { name := "Highridge", type := "ward", code := "", county := some "Nairobi",
         constituency := some "Westlands" }]) = ⟨1, 1, 2, 4⟩ ∧
    (1 : Nat) + 1 + 2 = 4 := by
  refine ⟨by decide, ?_⟩
  have h := (calculateStatistics_counts
    [{ name := "Nairobi", type := "county", code := "" },
     { name := "Westlands", type := "constituency", code := "", county := some "Nairobi" },
     { name := "Parklands", type := "ward", code := "", county := some "Nairobi",
       constituency := some "Westlands" },
     { name := "Highridge", type := "ward", code := "", county := some "Nairobi",
       constituency := some "Westlands" }]).2.2 (by decide)
  exact h

/-- C2: if the first attempt of `_fetchJSON` comes back with a non-success
HTTP status, the call fails at once with the HTTP-status error kind carrying
that status: one attempt, no delays, for every retry budget. -/
theorem fetchJSON_http_terminal (env : Nat → AttemptResult) (retries s : Nat)
    (h : env 0 = .httpStatus s) :
    fetchJSON env retries = ⟨.error (.httpStatus s), 1, []⟩ := by
  unfold fetchJSON fetchLoop
  rw [h]
  cases retries <;> rfl

/-- Witness for C2: a 404 on the first attempt with a budget of 5 retries
fails immediately. -/
theorem fetchJSON_http_terminal_witness :
    fetchJSON (fun _ => .httpStatus 404) 5 = ⟨.error (.httpStatus 404), 1, []⟩ :=
  fetchJSON_http_terminal (fun _ => .httpStatus 404) 5 404 rfl

lemma fetchLoop_attempts_pos (env : Nat → AttemptResult) (a r : Nat) :
    1 ≤ (fetchLoop env a r).attempts := by
  unfold fetchLoop
  cases env a <;> cases r <;> simp

lemma fetchLoop_spec (env : Nat → AttemptResult) :
    ∀ remaining attemptIdx,
      (fetchLoop env attemptIdx remaining).attempts ≤ remaining + 1 ∧
      (fetchLoop env attemptIdx remaining).delays =
        (List.range' attemptIdx ((fetchLoop env attemptIdx remaining).attempts - 1)).map backoff ∧
      ((∀ i, attemptIdx ≤ i → i ≤ attemptIdx + remaining → retryable (env i) = true) →
        (fetchLoop env attemptIdx remaining).attempts = remaining + 1 ∧
        (fetchLoop env attemptIdx remaining).result = attemptOutcome (env (attemptIdx + remaining))) := by
  intro remaining
  induction remaining with
  | zero =>
    intro a
    unfold fetchLoop
    cases h : env a <;> simp [h]
  | succ r ih =>
    intro a
    have hpos := fetchLoop_attempts_pos env (a + 1) r
    obtain ⟨ha, hd, hr⟩ := ih (a + 1)
    cases h : env a with
    | ok v =>
      refine ⟨by simp [fetchLoop, h], by simp [fetchLoop, h], fun hall => ?_⟩
      have := hall a le_rfl (Nat.le_add_right _ _)
      simp [h, retryable] at this
    | httpStatus s =>
      refine ⟨by simp [fetchLoop, h], by simp [fetchLoop, h], fun hall => ?_⟩
      have := hall a le_rfl (Nat.le_add_right _ _)
      simp [h, retryable] at this
    | parseFail =>
      refine ⟨by simp [fetchLoop, h], by simp [fetchLoop, h], fun hall => ?_⟩
      have := hall a le_rfl (Nat.le_add_right _ _)
      simp [h, retryable] at this
    | abortTimeout =>
      have heq : fetchLoop env a (r + 1) =
          ⟨(fetchLoop env (a + 1) r).result, (fetchLoop env (a + 1) r).attempts + 1,
            backoff a :: (fetchLoop env (a + 1) r).delays⟩ := by
        conv_lhs => unfold fetchLoop
        rw [h]
      obtain ⟨k, hk⟩ := Nat.exists_eq_add_of_le hpos
      refine ⟨by rw [heq]; simpa using ha, ?_, fun hall => ?_⟩
      · rw [heq]
        simp only [Nat.add_sub_cancel]
        rw [show (fetchLoop env (a + 1) r).attempts = k + 1 by omega, List.range'_succ,
          List.map_cons]
        have : k = (fetchLoop env (a + 1) r).attempts - 1 := by omega
        rw [this, ← hd]
      · have hsub := hr fun i h1 h2 => hall i (by omega) (by omega)
        rw [heq]
        refine ⟨by rw [hsub.1], ?_⟩
        rw [hsub.2, show a + 1 + r = a + (r + 1) from by omega]
    | transportFail =>
      have heq : fetchLoop env a (r + 1) =
          ⟨(fetchLoop env (a + 1) r).result, (fetchLoop env (a + 1) r).attempts + 1,
            backoff a :: (fetchLoop env (a + 1) r).delays⟩ := by
        conv_lhs => unfold fetchLoop
        rw [h]
      obtain ⟨k, hk⟩ := Nat.exists_eq_add_of_le hpos
      refine ⟨by rw [heq]; simpa using ha, ?_, fun hall => ?_⟩
      · rw [heq]
        simp only [Nat.add_sub_cancel]
        rw [show (fetchLoop env (a + 1) r).attempts = k + 1 by omega, List.range'_succ,
          List.map_cons]
        have : k = (fetchLoop env (a + 1) r).attempts - 1 := by omega
        rw [this, ← hd]
      · have hsub := hr fun i h1 h2 => hall i (by omega) (by omega)
        rw [heq]
        refine ⟨by rw [hsub.1], ?_⟩
        rw [hsub.2, show a + 1 + r = a + (r + 1) from by omega]

/-- C1: `_fetchJSON` makes at most `retries + 1` attempts; the delay after
failed attempt `k` (0-based) is `backoff k = min (1000 * 2 ^ k) 8000`
milliseconds — the delay list has one entry per inter-attempt boundary, so
there is no delay before the first attempt; and when every attempt within the
budget fails retryably (timeout/abort or transport error), the call makes
exactly `retries + 1` attempts and settles to the last attempt's error. -/
theorem fetchJSON_retry_policy (env : Nat → AttemptResult) (retries : Nat) :
    (fetchJSON env retries).attempts ≤ retries + 1 ∧
    (fetchJSON env retries).delays =
      (List.range ((fetchJSON env retries).attempts - 1)).map backoff ∧
    ((∀ i, i ≤ retries → retryable (env i) = true) →
      (fetchJSON env retries).attempts = retries + 1 ∧
      (fetchJSON env retries).result = attemptOutcome (env retries)) := by
  obtain ⟨ha, hd, hr⟩ := fetchLoop_spec env retries 0
  refine ⟨ha, ?_, fun hall => ?_⟩
  · rw [List.range_eq_range']
    exact hd
  · have := hr fun i h1 h2 => hall i (by omega)
    simpa using this

/-- Witness for C1 at the spec's scenario: `maxRetries = 2` against an
endpoint that times out on every attempt fails with the timeout kind after
exactly 3 attempts, with backoff delays of 1000 ms then 2000 ms. -/
theorem fetchJSON_retry_policy_witness :
    (fetchJSON (fun _ => .abortTimeout) 2).attempts = 3 ∧
    (fetchJSON (fun _ => .abortTimeout) 2).result = .error .timeout ∧
    (fetchJSON (fun _ => .abortTimeout) 2).delays = [1000, 2000] := by
  have h := fetchJSON_retry_policy (fun _ => .abortTimeout) 2
  have h3 := h.2.2 fun i _ => rfl
  refine ⟨h3.1, h3.2, ?_⟩
  rw [h.2.1, h3.1]
  decide

lemma debounceRun_pending (w : Nat) :
    ∀ ts t, debounceRun w (some (t + w)) ts = burstFires w (t :: ts) := by
  intro ts
  induction ts with
  | nil => intro t; rfl
  | cons t2 rest ih =>
    intro t
    show (if t + w < t2 then (t + w) :: debounceRun w (some (t2 + w)) rest
          else debounceRun w (some (t2 + w)) rest) =
      burstFires w (t :: t2 :: rest)
    rw [ih t2]
    show _ = if t2 - t ≤ w then burstFires w (t2 :: rest)
             else (t + w) :: burstFires w (t2 :: rest)
    by_cases hc : t2 - t ≤ w
    · rw [if_neg (by omega), if_pos hc]
    · rw [if_pos (by omega), if_neg hc]

/-- C9: a function debounced with wait `w`, triggered at the ascending times
`ts`, is invoked exactly once per maximal burst of triggers (a burst being a
run of triggers each within `w` of the previous), at the burst's last trigger
time plus `w` — this is precisely `burstFires`.  In particular, with
`w = 300` and triggers at 0, 100 and 150, it is invoked exactly once, at
450. -/
theorem debounce_bursts (w : Nat) (ts : List Nat) :
    debounceInvocations w ts = burstFires w ts ∧
    debounceInvocations 300 [0, 100, 150] = [450] := by
  refine ⟨?_, by decide⟩
  cases ts with
  | nil => rfl
  | cons t rest => exact debounceRun_pending w rest t

/-- Stated from the claim, for comparison with `applyFilters`: a record
matches when every active (non-empty) criterion matches it — the search
criterion by case-insensitive substring against `name` or, when present,
`county`; the county and type criteria by exact equality; an inactive
criterion matches everything. -/
def specCriteriaMatch (searchRaw selCounty selType : String) (r : AreaRecord) : Bool :=
  (searchRaw = "" || strIncludes (toLowerStr r.name) (toLowerStr searchRaw) ||
     (match r.county with
      | some cty => strIncludes (toLowerStr cty) (toLowerStr searchRaw)
      | none => false)) &&
  (selCounty = "" || r.county = some selCounty) &&
  (selType = "" || r.type = selType)

lemma toLowerStr_data (s : String) : (toLowerStr s).data = s.data.map Char.toLower := rfl

lemma mk_eq_empty_iff (l : List Char) : (⟨l⟩ : String) = "" ↔ l = [] := by
  constructor
  · intro h
    have := congrArg String.data h
    simpa using this
  · intro h
    subst h
    rfl

lemma toLowerStr_empty_iff (s : String) : toLowerStr s = "" ↔ s = "" := by
  cases s with
  | mk data =>
    show (⟨data.map Char.toLower⟩ : String) = "" ↔ (⟨data⟩ : String) = ""
    rw [mk_eq_empty_iff, mk_eq_empty_iff]
    simp

lemma filtersPointwise (s c t : String) (r : AreaRecord) :
    (matchesSearch (toLowerStr s) r && matchesCounty c r && matchesType t r) =
      specCriteriaMatch s c t r := by
  unfold matchesSearch matchesCounty matchesType specCriteriaMatch
  by_cases hs : s = ""
  · subst hs
    have h0 : toLowerStr "" = "" := rfl
    rw [h0]
    simp
  · have h1 : (decide (toLowerStr s = "")) = false := by
      simp [toLowerStr_empty_iff, hs]
    have h2 : (decide (s = "")) = false := by simp [hs]
    rw [h1, h2]
    cases hcy : r.county with
    | none => rfl
    | some c0 =>
      by_cases hc0 : c0 = ""
      · subst hc0
        have h3 : strIncludes (toLowerStr "") (toLowerStr s) = false := by
          show (toLowerStr s).data.isEmpty = false
          rw [toLowerStr_data, List.isEmpty_eq_false_iff_exists_mem]
          cases hd : s.data with
          | nil => exact absurd (by cases s; simp_all) hs
          | cons x xs => exact ⟨Char.toLower x, by simp [hd]⟩
        simp [h3]
      · simp [hc0]

/-- C6: the filtering stage of `applyFilters` keeps exactly the records on
which every active criterion matches (`specCriteriaMatch`, written from the
claim); survivors keep their original relative order (the result is a
sublist of the input); and with no active criteria the whole input comes
back unchanged. -/
theorem applyFilters_criteria (data : List AreaRecord) (s c t : String) :
    applyFilters data s c t = data.filter (specCriteriaMatch s c t) ∧
    (applyFilters data s c t).Sublist data ∧
    applyFilters data "" "" "" = data := by
  have hmain : applyFilters data s c t = data.filter (specCriteriaMatch s c t) := by
    unfold applyFilters
    exact List.filter_congr fun r _ => filtersPointwise s c t r
  refine ⟨hmain, ?_, ?_⟩
  · unfold applyFilters
    exact List.filter_sublist data
  · unfold applyFilters
    refine List.filter_eq_self.mpr fun r _ => ?_
    have h0 : toLowerStr "" = "" := rfl
    simp [matchesSearch, matchesCounty, matchesType, h0]

/-! ## Array identity model for the mutation claim (C8)

`sortData` begins with `const sorted = [...data]` and then calls
`sorted.sort(cmp)`, which mutates `sorted` in place and returns it.  To state
that the *input array* is untouched we track array identity explicitly:
a store maps allocation indices to contents, `spreadCopy` models `[...data]`
(fresh index, copied contents), and `sortInPlace` models `.sort(cmp)`
(replaces the contents at one index). -/

structure ArrStore where
  arrs : Nat → List AreaRecord
  next : Nat

/-- JS `[...data]`: allocate a fresh array copying the contents of `src`. -/
def spreadCopy (src : Nat) (s : ArrStore) : Nat × ArrStore :=
  (s.next, ⟨fun i => if i = s.next then s.arrs src else s.arrs i, s.next + 1⟩)

/-- JS `arr.sort(cmp)` with the comparator selected by `sortBy`: the contents
at `arr` are replaced by their sorted permutation (`sortData` computes
exactly the sorted contents). -/
def sortInPlace (arr : Nat) (sortBy : String) (s : ArrStore) : ArrStore :=
  ⟨fun i => if i = arr then sortData (s.arrs i) sortBy else s.arrs i, s.next⟩

/-- `DataService.sortData` on the store: copy the input array, sort the copy
in place, return (the index of) the copy. -/
def sortDataOnStore (dataArr : Nat) (sortBy : String) (s : ArrStore) : Nat × ArrStore :=
  let a := spreadCopy dataArr s
  (a.1, sortInPlace a.1 sortBy a.2)

/-- C8: for every store, every allocated input array and every sort key,
`sortData` leaves the input array's contents unchanged, and returns a
different (freshly allocated) array holding the sorted contents — a new
sequence, never a mutation of the input. -/
theorem sortData_no_mutation (s : ArrStore) (dataArr : Nat) (sortBy : String)
    (h : dataArr < s.next) :
    (sortDataOnStore dataArr sortBy s).2.arrs dataArr = s.arrs dataArr ∧
    (sortDataOnStore dataArr sortBy s).1 ≠ dataArr ∧
    (sortDataOnStore dataArr sortBy s).2.arrs (sortDataOnStore dataArr sortBy s).1 =
      sortData (s.arrs dataArr) sortBy := by
  have hne : dataArr ≠ s.next := by omega
  unfold sortDataOnStore spreadCopy sortInPlace
  refine ⟨?_, fun hc => hne hc.symm, ?_⟩
  · simp [hne]
  · simp

/-- Witness for C8: a two-record store, sorted by name; the original slot is
unchanged and the returned slot holds the sorted sequence. -/
theorem sortData_no_mutation_witness :
    (0 : Nat) < 1 ∧
    ((sortDataOnStore 0 "name"
        ⟨fun _ => [{ name := "Bravo", code := "", type := "ward" },
                   { name := "Alpha", code := "", type := "county" }], 1⟩).2.arrs 0 =
      (⟨fun _ => [{ name := "Bravo", code := "", type := "ward" },
                  { name := "Alpha", code := "", type := "county" }], 1⟩ : ArrStore).arrs 0 ∧
     (sortDataOnStore 0 "name"
        ⟨fun _ => [{ name := "Bravo", code := "", type := "ward" },
                   { name := "Alpha", code := "", type := "county" }], 1⟩).1 ≠ 0 ∧
     (sortDataOnStore 0 "name"
        ⟨fun _ => [{ name := "Bravo", code := "", type := "ward" },
                   { name := "Alpha", code := "", type := "county" }], 1⟩).2.arrs
       (sortDataOnStore 0 "name"
        ⟨fun _ => [{ name := "Bravo", code := "", type := "ward" },
                   { name := "Alpha", code := "", type := "county" }], 1⟩).1 =
      sortData ((⟨fun _ => [{ name := "Bravo", code := "", type := "ward" },
                  { name := "Alpha", code := "", type := "county" }], 1⟩ : ArrStore).arrs 0)
        "name") :=
  ⟨by decide,
   sortData_no_mutation
     ⟨fun _ => [{ name := "Bravo", code := "", type := "ward" },
                { name := "Alpha", code := "", type := "county" }], 1⟩ 0 "name" (by decide)⟩

/-! ## Order theory of the comparator model (for C7) -/

lemma cmpChars_swap : ∀ l1 l2 : List Char, cmpChars l2 l1 = (cmpChars l1 l2).swap := by
  intro l1
  induction l1 with
  | nil => intro l2; cases l2 <;> rfl
  | cons a as ih =>
    intro l2
    cases l2 with
    | nil => rfl
    | cons b bs =>
      rcases lt_trichotomy a b with h | h | h
      · have h2 : ¬b < a := not_lt_of_lt h
        simp [cmpChars, h, h2, not_lt_of_lt, Ordering.swap]
      · subst h
        simp [cmpChars, lt_irrefl, ih bs]
      · have h2 : ¬a < b := not_lt_of_lt h
        simp [cmpChars, h, h2, Ordering.swap]

lemma cmpChars_eq_iff : ∀ l1 l2 : List Char, cmpChars l1 l2 = .eq ↔ l1 = l2 := by
  intro l1
  induction l1 with
  | nil => intro l2; cases l2 <;> simp [cmpChars]
  | cons a as ih =>
    intro l2
    cases l2 with
    | nil => simp [cmpChars]
    | cons b bs =>
      rcases lt_trichotomy a b with h | h | h
      · have hne : a ≠ b := ne_of_lt h
        simp [cmpChars, h, hne]
      · subst h
        simp [cmpChars, lt_irrefl, ih bs]
      · have h2 : ¬a < b := not_lt_of_lt h
        have hne : a ≠ b := (ne_of_lt h).symm
        simp [cmpChars, h, h2, hne]

lemma cmpChars_le_trans :
    ∀ l1 l2 l3 : List Char, cmpChars l1 l2 ≠ .gt → cmpChars l2 l3 ≠ .gt →
      cmpChars l1 l3 ≠ .gt := by
  intro l1
  induction l1 with
  | nil => intro l2 l3 _ _; cases l3 <;> simp [cmpChars]
  | cons a as ih =>
    intro l2 l3 h1 h2
    cases l2 with
    | nil => exact absurd rfl h1
    | cons b bs =>
      cases l3 with
      | nil => exact absurd rfl h2
      | cons c cs =>
        have hab : ¬b < a := fun hlt => by
          have h3 : ¬a < b := not_lt_of_lt hlt
          simp [cmpChars, h3, hlt] at h1
        have hbc : ¬c < b := fun hlt => by
          have h3 : ¬b < c := not_lt_of_lt hlt
          simp [cmpChars, h3, hlt] at h2
        have hba : a ≤ b := le_of_not_lt hab
        have hcb : b ≤ c := le_of_not_lt hbc
        by_cases hac : a < c
        · simp [cmpChars, hac]
        · have hca : ¬c < a := fun hlt =>
            absurd (lt_of_lt_of_le (lt_of_lt_of_le hlt hba) hcb) (lt_irrefl c)
          have heqac : a = c := le_antisymm (le_trans hba hcb) (le_of_not_lt hac)
          have heqab : a = b := le_antisymm hba (heqac ▸ hcb)
          have hnab : ¬a < b := heqab ▸ lt_irrefl a
          have hnba : ¬b < a := heqab ▸ lt_irrefl a
          have hnbc : ¬b < c := heqab ▸ hac
          simp only [cmpChars, hnab, hnba, if_false] at h1
          simp only [cmpChars, hnbc, hbc, if_false] at h2
          simp only [cmpChars, hac, hca, if_false]
          exact ih bs cs h1 h2

lemma cmpChars_total (l1 l2 : List Char) :
    cmpChars l1 l2 ≠ .gt ∨ cmpChars l2 l1 ≠ .gt := by
  rw [cmpChars_swap l1 l2]
  cases h : cmpChars l1 l2 <;> simp [Ordering.swap]

lemma string_data_inj {s t : String} (h : s.data = t.data) : s = t := by
  cases s
  cases t
  exact congrArg String.mk (by simpa using h)

instance : IsTotal AreaRecord nameLe :=
  ⟨fun a b => cmpChars_total a.name.data b.name.data⟩

instance : IsTrans AreaRecord nameLe :=
  ⟨fun a b c h1 h2 => cmpChars_le_trans a.name.data b.name.data c.name.data h1 h2⟩

instance : IsTotal AreaRecord nameDescLe :=
  ⟨fun a b => cmpChars_total b.name.data a.name.data⟩

instance : IsTrans AreaRecord nameDescLe :=
  ⟨fun a b c h1 h2 => cmpChars_le_trans c.name.data b.name.data a.name.data h2 h1⟩

/-- Strict descending name order: `y.name` strictly before `x.name`. -/
def nameGtStrict (x y : AreaRecord) : Prop := cmpChars y.name.data x.name.data = .lt

instance : IsAntisymm AreaRecord nameGtStrict :=
  ⟨fun a b h1 h2 => by
    unfold nameGtStrict at h1 h2
    rw [cmpChars_swap, h1] at h2
    exact absurd h2 (by simp [Ordering.swap])⟩

lemma names_ne_of_cmp_ne (x y : AreaRecord) (h : x.name ≠ y.name) :
    cmpChars x.name.data y.name.data ≠ .eq := fun hcmp =>
  h (string_data_inj ((cmpChars_eq_iff _ _).mp hcmp))

lemma sorted_distinct_strict (l : List AreaRecord)
    (hs : l.Pairwise nameDescLe) (hd : l.Pairwise fun a b => a.name ≠ b.name) :
    l.Pairwise nameGtStrict := by
  refine (hs.and hd).imp ?_
  rintro a b ⟨hle, hne⟩
  unfold nameDescLe localeCmp at hle
  unfold nameGtStrict
  have hne2 := names_ne_of_cmp_ne b a hne.symm
  cases h : cmpChars b.name.data a.name.data with
  | lt => rfl
  | eq => exact absurd h hne2
  | gt => exact absurd h hle

lemma rev_sorted_distinct_strict (l : List AreaRecord)
    (hs : l.Pairwise nameLe) (hd : l.Pairwise fun a b => a.name ≠ b.name) :
    l.reverse.Pairwise nameGtStrict := by
  rw [List.pairwise_reverse]
  refine (hs.and hd).imp ?_
  rintro a b ⟨hle, hne⟩
  unfold nameLe localeCmp at hle
  show cmpChars a.name.data b.name.data = .lt
  have hne2 := names_ne_of_cmp_ne a b hne
  cases h : cmpChars a.name.data b.name.data with
  | lt => rfl
  | eq => exact absurd h hne2
  | gt => exact absurd h hle

/-- C7: on a collection with pairwise distinct names, the reverse of
`sortData(R, "name")` equals `sortData(R, "name-desc")`, element for
element. -/
theorem sortData_name_reverse (R : List AreaRecord)
    (hd : R.Pairwise fun a b => a.name ≠ b.name) :
    (sortData R "name").reverse = sortData R "name-desc" := by
  have hA : sortData R "name" = List.insertionSort nameLe R := rfl
  have hB : sortData R "name-desc" = List.insertionSort nameDescLe R := rfl
  rw [hA, hB]
  have hsymm : Symmetric fun a b : AreaRecord => a.name ≠ b.name :=
    fun _ _ h => fun heq => h heq.symm
  have pA : (List.insertionSort nameLe R).Perm R := List.perm_insertionSort nameLe R
  have pB : (List.insertionSort nameDescLe R).Perm R := List.perm_insertionSort nameDescLe R
  have dA : (List.insertionSort nameLe R).Pairwise fun a b => a.name ≠ b.name :=
    ((pA.pairwise_iff fun h => hsymm h).mpr hd)
  have dB : (List.insertionSort nameDescLe R).Pairwise fun a b => a.name ≠ b.name :=
    ((pB.pairwise_iff fun h => hsymm h).mpr hd)
  have sA : (List.insertionSort nameLe R).Pairwise nameLe :=
    List.sorted_insertionSort nameLe R
  have sB : (List.insertionSort nameDescLe R).Pairwise nameDescLe :=
    List.sorted_insertionSort nameDescLe R
  have strictA := rev_sorted_distinct_strict _ sA dA
  have strictB := sorted_distinct_strict _ sB dB
  have hperm : (List.insertionSort nameLe R).reverse.Perm (List.insertionSort nameDescLe R) :=
    ((List.reverse_perm _).trans pA).trans pB.symm
  exact List.eq_of_perm_of_sorted hperm strictA strictB

/-- Witness for C7: three records with distinct names. -/
theorem sortData_name_reverse_witness :
    (List.Pairwise (fun a b : AreaRecord => a.name ≠ b.name)
      [{ name := "Charlie", code := "", type := "ward" },
       { name := "Alpha", code := "", type := "county" },
       { name := "Bravo", code := "", type := "constituency" }]) ∧
    (sortData
      [{ name := "Charlie", code := "", type := "ward" },
       { name := "Alpha", code := "", type := "county" },
       { name := "Bravo", code := "", type := "constituency" }] "name").reverse =
      sortData
      [{ name := "Charlie", code := "", type := "ward" },
       { name := "Alpha", code := "", type := "county" },
       { name := "Bravo", code := "", type := "constituency" }] "name-desc" :=
  ⟨by decide,
   sortData_name_reverse
     [{ name := "Charlie", code := "", type := "ward" },
      { name := "Alpha", code := "", type := "county" },
      { name := "Bravo", code := "", type := "constituency" }] (by decide)⟩

/-- C10: with `useMockData = true` (the constructor default, as in
`newDataService`), `fetchAllAreas` returns exactly
`getComprehensiveMockData`, issues no network request, and neither reads nor
writes the cache (the state comes back unchanged, and the same result is
obtained for every cache contents); `clearCache` therefore has no effect on
the result. -/
theorem fetchAllAreas_mock_mode (st : SvcState) (o : NetOracle)
    (h : st.useMockData = true) :
    fetchAllAreas st o = (getComprehensiveMockData, st, []) ∧
    fetchAllAreas (clearCache st) o = (getComprehensiveMockData, clearCache st, []) ∧
    (∀ c, fetchAllAreas { st with cache := c } o =
      (getComprehensiveMockData, { st with cache := c }, [])) ∧
    newDataService.useMockData = true := by
  have h1 : ∀ st' : SvcState, st'.useMockData = true →
      fetchAllAreas st' o = (getComprehensiveMockData, st', []) := by
    intro st' h'
    unfold fetchAllAreas fetchAllAreasBody
    rw [h']
    rfl
  exact ⟨h1 st h, h1 (clearCache st) h, fun c => h1 { st with cache := c } h, rfl⟩

/-- Witness for C10: a freshly constructed service against a dead network
still returns the mock dataset with no requests and an unchanged state. -/
theorem fetchAllAreas_mock_mode_witness :
    fetchAllAreas newDataService ⟨.error .transport, fun _ => .error .transport⟩ =
      (getComprehensiveMockData, newDataService, []) :=
  (fetchAllAreas_mock_mode newDataService
    ⟨.error .transport, fun _ => .error .transport⟩ rfl).1

lemma fetchCounties_congr (st : SvcState) {o1 o2 : NetOracle}
    (h : o1.countiesCall = o2.countiesCall) :
    fetchCounties st o1 = fetchCounties st o2 := by
  unfold fetchCounties
  rw [h]

lemma fetchAreasByCounty_congr (st : SvcState) (cn : String) {o1 o2 : NetOracle}
    (h : o1.areasCall cn = o2.areasCall cn) :
    fetchAreasByCounty st o1 cn = fetchAreasByCounty st o2 cn := by
  unfold fetchAreasByCounty
  rw [h]

lemma fetchAllAreas_congr (st : SvcState) {o1 o2 : NetOracle}
    (hc : fetchCounties st o1 = fetchCounties st o2)
    (ha : ∀ cn, fetchAreasByCounty st o1 cn = fetchAreasByCounty st o2 cn) :
    fetchAllAreas st o1 = fetchAllAreas st o2 := by
  unfold fetchAllAreas fetchAllAreasBody
  cases hm : st.useMockData
  · cases st.cache
    · have hfun : (fun c : CountyObj => fetchAreasByCounty st o1 c.name) =
          (fun c : CountyObj => fetchAreasByCounty st o2 c.name) :=
        funext fun c => ha c.name
      rw [hc, hfun]
    · rfl
  · rfl

/-- C3, amended: (a) the body of `fetchAllAreas` never raises, for any state
and network behaviour — the catch-all fallback to the mock dataset is
unreachable because every sub-fetch already catches its own errors; (b) a
failing per-county sub-fetch is indistinguishable from that county reporting
no areas: only that county's rows are lost and the rest of the assembly is
unchanged; (c) a failing counties fetch falls back to the built-in mock
*county list* (not the full mock dataset) and the live assembly continues
from it. -/
theorem fetchAllAreas_resilience (st : SvcState) (o : NetOracle)
    (cn : String) (e e2 : FetchErr) :
    (∃ v, fetchAllAreasBody st o = .ok v) ∧
    fetchAllAreas st { o with areasCall := fun n => if n = cn then .error e else o.areasCall n } =
      fetchAllAreas st { o with areasCall := fun n => if n = cn then .ok ⟨none⟩ else o.areasCall n } ∧
    fetchAllAreas st { o with countiesCall := .error e2 } =
      fetchAllAreas st { o with countiesCall := .ok ⟨some getMockCounties⟩ } := by
  refine ⟨?_, ?_, ?_⟩
  · unfold fetchAllAreasBody
    cases hm : st.useMockData
    · cases st.cache
      · exact ⟨_, rfl⟩
      · exact ⟨_, rfl⟩
    · exact ⟨_, rfl⟩
  · refine fetchAllAreas_congr st (fetchCounties_congr st rfl) fun n => ?_
    unfold fetchAreasByCounty
    cases hm : st.useMockData
    · by_cases hn : n = cn
      · subst hn
        simp [processAreas]
      · simp [hn]
    · rfl
  · refine fetchAllAreas_congr st ?_ fun n => fetchAreasByCounty_congr st n rfl
    unfold fetchCounties
    cases hm : st.useMockData
    · rfl
    · rfl

/-- Counterexample for C3 as stated: with the counties endpoint failing and
every per-county endpoint succeeding with an empty payload, an error *is*
raised on the live retrieval path, yet `fetchAllAreas` does not return the
built-in mock dataset — it returns the five mock-county rows assembled live
(first row has code "047", while the mock dataset's first row has code
"001"). -/
theorem fetchAllAreas_resilience_counterexample :
    (⟨.error .transport, fun _ => .ok ⟨some []⟩⟩ : NetOracle).countiesCall =
      .error .transport ∧
    (fetchAllAreas ⟨false, none⟩ ⟨.error .transport, fun _ => .ok ⟨some []⟩⟩).1.head? =
      some { name := "Nairobi", code := "047", type := "county", county := some "Nairobi" } ∧
    getComprehensiveMockData.head? =
      some { name := "Nairobi", code := "001", type := "county", county := some "Nairobi" } ∧
    (fetchAllAreas ⟨false, none⟩ ⟨.error .transport, fun _ => .ok ⟨some []⟩⟩).1 ≠
      getComprehensiveMockData := by
  refine ⟨rfl, by decide, by decide, fun hcontra => ?_⟩
  have h1 : (fetchAllAreas ⟨false, none⟩
      ⟨.error .transport, fun _ => .ok ⟨some []⟩⟩).1.head? =
      some { name := "Nairobi", code := "047", type := "county",
             county := some "Nairobi" } := by decide
  have h2 : getComprehensiveMockData.head? =
      some { name := "Nairobi", code := "001", type := "county",
             county := some "Nairobi" } := by decide
  rw [hcontra, h2] at h1
  exact absurd (Option.some.inj h1) (by decide)

/-! ## Data-model invariants of produced records (C5) -/

/-- The invariant each produced record actually satisfies: a county record
carries its *own name* in `county` (not an empty/absent `county`) and no
`constituency`; a constituency record a non-empty `county` and no
`constituency`; a ward record a non-empty `county` and a non-empty
`constituency`; and `type` is always one of the three enumerated values
(any record satisfying this disjunction has such a `type`). -/
def recordInv (r : AreaRecord) : Bool :=
  (r.type = "county" && r.county = some r.name && r.constituency = none) ||
  (r.type = "constituency" &&
    (match r.county with | some c => decide (c ≠ "") | none => false) &&
    r.constituency = none) ||
  (r.type = "ward" &&
    (match r.county with | some c => decide (c ≠ "") | none => false) &&
    (match r.constituency with | some k => decide (k ≠ "") | none => false))

lemma snd_mem_of_mem_enumFrom {α : Type} :
    ∀ (l : List α) (n : Nat) (p : Nat × α), p ∈ List.enumFrom n l → p.2 ∈ l := by
  intro l
  induction l with
  | nil => intro n p h; simp [List.enumFrom] at h
  | cons x xs ih =>
    intro n p h
    rcases List.mem_cons.mp h with rfl | h2
    · exact List.mem_cons_self x xs
    · exact List.mem_cons_of_mem x (ih (n + 1) p h2)

lemma snd_mem_of_mem_enum {α : Type} (l : List α) (p : Nat × α) (h : p ∈ l.enum) :
    p.2 ∈ l :=
  snd_mem_of_mem_enumFrom l 0 p h

lemma mockWard_inv (ccode : String) (cidx : Nat) (county const_ : String) (w : Nat)
    (hco : county ≠ "") (hcn : const_ ≠ "") :
    recordInv (mockWard ccode cidx county const_ w) = true := by
  simp [mockWard, recordInv, hco, hcn]

lemma mockConstituency_inv (ccode county : String) (cidx : Nat) (const_ : String)
    (hco : county ≠ "") (hcn : const_ ≠ "") :
    ∀ r ∈ mockConstituency ccode county cidx const_, recordInv r = true := by
  intro r hr
  unfold mockConstituency at hr
  rcases List.mem_cons.mp hr with rfl | hr2
  · simp [recordInv, hco]
  · obtain ⟨w, _, rfl⟩ := List.mem_map.mp hr2
    exact mockWard_inv ccode cidx county const_ (w + 1) hco hcn

lemma mockCounty_inv (code : Nat) (county : String) (cs : List String)
    (hco : county ≠ "") (hcs : ∀ c ∈ cs, c ≠ "") :
    ∀ r ∈ mockCounty code county cs, recordInv r = true := by
  intro r hr
  unfold mockCounty at hr
  rcases List.mem_cons.mp hr with rfl | hr2
  · simp [recordInv]
  · rw [List.mem_flatten] at hr2
    obtain ⟨l, hl, hrl⟩ := hr2
    obtain ⟨p, hp, rfl⟩ := List.mem_map.mp hl
    exact mockConstituency_inv _ county p.1 p.2 hco (hcs p.2 (snd_mem_of_mem_enum cs p hp))
      r hrl

lemma mockLoop_inv :
    ∀ (tbl : List (String × List String)) (k : Nat),
      (∀ e ∈ tbl, e.1 ≠ "" ∧ ∀ c ∈ e.2, c ≠ "") →
      ∀ r ∈ mockLoop tbl k, recordInv r = true := by
  intro tbl
  induction tbl with
  | nil => intro k _ r hr; simp [mockLoop] at hr
  | cons e rest ih =>
    intro k h r hr
    unfold mockLoop at hr
    rcases List.mem_append.mp hr with h1 | h2
    · have he := h e (List.mem_cons_self e rest)
      exact mockCounty_inv k e.1 e.2 he.1 he.2 r h1
    · exact ih (k + 1) (fun x hx => h x (List.mem_cons_of_mem e hx)) r h2

lemma tableOK : ∀ e ∈ countyData, e.1 ≠ "" ∧ ∀ c ∈ e.2, c ≠ "" := by decide

lemma mockCounties_names : ∀ c ∈ getMockCounties, c.name ≠ "" := by decide

lemma processAreas_inv (cn : String) (p : AreasPayload) (hcn : cn ≠ "")
    (hnames : ∀ cobj ∈ p.constituencies.getD [], cobj.name ≠ "") :
    ∀ r ∈ processAreas cn p, recordInv r = true := by
  intro r hr
  unfold processAreas at hr
  cases hp : p.constituencies with
  | none => rw [hp] at hr; simp at hr
  | some cs =>
    rw [hp] at hr
    rw [List.mem_flatten] at hr
    obtain ⟨l, hl, hrl⟩ := hr
    obtain ⟨cobj, hcmem, rfl⟩ := List.mem_map.mp hl
    have hcname : cobj.name ≠ "" := hnames cobj (by simp [hp, hcmem])
    rcases List.mem_cons.mp hrl with rfl | hw
    · simp [recordInv, hcn]
    · cases hww : cobj.wards with
      | none => rw [hww] at hw; simp at hw
      | some ws =>
        rw [hww] at hw
        obtain ⟨w, _, rfl⟩ := List.mem_map.mp hw
        simp [recordInv, hcn, hcname]

lemma fetchAreasByCounty_inv (st : SvcState) (o : NetOracle) (cn : String)
    (hm : st.useMockData = false) (hcn : cn ≠ "")
    (ha : ∀ p, o.areasCall cn = .ok p → ∀ cobj ∈ p.constituencies.getD [], cobj.name ≠ "") :
    ∀ r ∈ (fetchAreasByCounty st o cn).1, recordInv r = true := by
  unfold fetchAreasByCounty
  rw [hm]
  cases hcall : o.areasCall cn with
  | error e => intro r hr; simp at hr
  | ok p =>
    intro r hr
    exact processAreas_inv cn p hcn (ha p hcall) r (by simpa using hr)

lemma fetchCounties_names (st : SvcState) (o : NetOracle) (hm : st.useMockData = false)
    (hc : ∀ p, o.countiesCall = .ok p → ∀ c ∈ p.counties.getD [], c.name ≠ "") :
    ∀ c ∈ (fetchCounties st o).1, c.name ≠ "" := by
  unfold fetchCounties
  rw [hm]
  cases hcall : o.countiesCall with
  | error e => intro c hcm; exact mockCounties_names c (by simpa using hcm)
  | ok p => intro c hcm; exact hc p hcall c (by simpa using hcm)

/-- C5, amended: every record produced by `getComprehensiveMockData`, and
every record produced by `fetchAllAreas` (on an empty cache, with endpoint
payloads whose names are non-empty), satisfies `recordInv`: ward records have
non-empty `county` and `constituency`; constituency records a non-empty
`county` and no `constituency`; county records carry their *own name* as
`county` (not an empty one, contrary to the claim as stated) and no
`constituency`; `type` is always one of the three enumerated values. -/
theorem areaRecords_invariants (st : SvcState) (o : NetOracle)
    (hcache : st.cache = none)
    (hc : ∀ p, o.countiesCall = .ok p → ∀ c ∈ p.counties.getD [], c.name ≠ "")
    (ha : ∀ cn p, o.areasCall cn = .ok p →
      ∀ cobj ∈ p.constituencies.getD [], cobj.name ≠ "") :
    (∀ r ∈ getComprehensiveMockData, recordInv r = true) ∧
    (∀ r ∈ (fetchAllAreas st o).1, recordInv r = true) := by
  have hmock : ∀ r ∈ getComprehensiveMockData, recordInv r = true :=
    mockLoop_inv countyData 1 tableOK
  refine ⟨hmock, ?_⟩
  cases hm : st.useMockData with
  | true =>
    unfold fetchAllAreas fetchAllAreasBody
    rw [hm]
    exact hmock
  | false =>
    unfold fetchAllAreas fetchAllAreasBody
    rw [hm, hcache]
    intro r hr
    rcases List.mem_append.mp hr with h1 | h2
    · obtain ⟨c, _, rfl⟩ := List.mem_map.mp h1
      simp [recordInv]
    · rw [List.mem_flatten] at h2
      obtain ⟨l, hl, hrl⟩ := h2
      rw [List.map_map] at hl
      obtain ⟨c, hcm, rfl⟩ := List.mem_map.mp hl
      have hcn : c.name ≠ "" := fetchCounties_names st o hm hc c hcm
      exact fetchAreasByCounty_inv st o c.name hm hcn (fun p h => ha c.name p h) r hrl

/-- Counterexample for C5 as stated: the first record of
`getComprehensiveMockData` is a county record whose `county` field is its
own name, not empty/absent. -/
theorem areaRecords_invariants_counterexample :
    ({ name := "Nairobi", code := "001", type := "county", county := some "Nairobi",
       constituency := none } : AreaRecord) ∈ getComprehensiveMockData ∧
    ({ name := "Nairobi", code := "001", type := "county", county := some "Nairobi",
       constituency := none } : AreaRecord).type = "county" ∧
    ({ name := "Nairobi", code := "001", type := "county", county := some "Nairobi",
       constituency := none } : AreaRecord).county ≠ none ∧
    ({ name := "Nairobi", code := "001", type := "county", county := some "Nairobi",
       constituency := none } : AreaRecord).county ≠ some "" :=
  ⟨by decide, rfl, by decide, by decide⟩

/-- Witness for C5: a live service over a dead network (the payload-name
hypotheses hold vacuously). -/
theorem areaRecords_invariants_witness :
    (∀ r ∈ getComprehensiveMockData, recordInv r = true) ∧
    (∀ r ∈ (fetchAllAreas ⟨false, none⟩
        ⟨.error .transport, fun _ => .error .transport⟩).1, recordInv r = true) :=
  areaRecords_invariants ⟨false, none⟩ ⟨.error .transport, fun _ => .error .transport⟩
    rfl (fun _ h => Except.noConfusion h) (fun _ _ h => Except.noConfusion h)

end Civic
